import Mathlib

/-!
Verification development for the PDF book-analysis tool (`demo.py`).

The program is a sequential orchestration loop: for each page of a PDF it
asks an external classifier for `{has_content, knowledge[]}`, appends the
returned knowledge to an in-memory list when `has_content` is true,
persists the whole list to a single JSON file after every page, and
periodically asks an external summarizer for a markdown digest which is
written to a numbered summary file.

Shallow embedding choices:
* The external classifier is an oracle: a document is modelled as the list
  of per-page classifier responses (`List PageContent`); the page text
  itself is irrelevant to the logic under verification.
* The external summarizer is an oracle `List String → String`.
* The knowledge JSON file is modelled as an `Option Json` (`none` = file
  absent); `save_knowledge_base` produces the JSON value that
  `json.dump({"knowledge": kb})` serializes.
* The summaries directory is modelled by the sets of numbers of existing
  files of each kind (`<doc>_interval_NNN.md` / `<doc>_final_NNN.md`);
  per-file markdown content (title, timestamp, footer) carries no logic
  and is not modelled.
* Console output, the interactive start prompt, and the PDF staging in
  `setup_directories` (copy / FileNotFoundError) are outside the modelled
  fragment; the model of `main` corresponds to a run that reaches the
  page loop.
-/

/-- JSON values, as far as the knowledge file needs them: `json.dump` /
`json.load` work on exactly this value space (restricted to the
constructors the program can produce or consume). -/
inductive Json where
  | str (s : String)
  | num (n : Int)
  | bool (b : Bool)
  | null
  | arr (xs : List Json)
  | obj (fields : List (String × Json))

/-- The pydantic response model `PageContent` (demo.py lines 27-29). -/
structure PageContent where
  has_content : Bool
  knowledge : List String
deriving DecidableEq

/-- demo.py line 42: `json.dump({"knowledge": knowledge_base}, f)` — the JSON
value written to the knowledge file. -/
def knowledgeFileJson (knowledge_base : List String) : Json :=
  Json.obj [("knowledge", Json.arr (knowledge_base.map Json.str))]

/-- demo.py lines 38-42, `save_knowledge_base`: overwrite the knowledge file
with `{"knowledge": [...]}`. The return value is the new file content. -/
def save_knowledge_base (knowledge_base : List String) : Json :=
  knowledgeFileJson knowledge_base

/-- Python dict built by `json.load`: for duplicate keys the last occurrence
wins, and lookup of a missing key is an error (`KeyError`). -/
def dictLookup (fields : List (String × Json)) (key : String) : Option Json :=
  fields.foldl (fun acc kv => if kv.1 = key then some kv.2 else acc) none

/-- Decode a JSON array element list into `list[str]`. The Lean model types
the knowledge base as `List String` (the `list[str]` annotation in demo.py);
a list containing a non-string value cannot inhabit that type and is
modelled as a decode error. -/
def decodeStringList : List Json → Option (List String)
  | [] => some []
  | Json.str s :: js =>
    match decodeStringList js with
    | some rest => some (s :: rest)
    | none => none
  | _ :: _ => none

/-- demo.py lines 100-109, `load_existing_knowledge`: if the knowledge file
exists, parse it and return `data['knowledge']`; otherwise return `[]`.
An existing file whose content does not fit `{"knowledge": list[str]}`
raises in Python (JSONDecodeError / KeyError / TypeError downstream) and is
modelled as `Except.error`. -/
def load_existing_knowledge : Option Json → Except String (List String)
  | none => .ok []
  | some (.obj fields) =>
    match dictLookup fields "knowledge" with
    | some (.arr xs) =>
      match decodeStringList xs with
      | some l => .ok l
      | none => .error "TypeError: knowledge items are not all strings"
    | some _ => .error "TypeError: knowledge field is not a list"
    | none => .error "KeyError: knowledge"
  | some _ => .error "CorruptStateError: knowledge file is not an object"

/-- demo.py lines 44-98, `process_page` (pure part): append the classifier
result's knowledge when `has_content`, else keep the list unchanged; then
persist the whole updated list (`save_knowledge_base(updated_knowledge)`).
Returns (updated knowledge list, persisted file content). -/
def process_page (result : PageContent) (current_knowledge : List String) :
    List String × Json :=
  let updated_knowledge :=
    current_knowledge ++ (if result.has_content then result.knowledge else [])
  (updated_knowledge, save_knowledge_base updated_knowledge)

/-- The summaries directory, reduced to what the filename logic reads and
writes: the sets of numbers `NNN` of the existing `<doc>_final_NNN.md` and
`<doc>_interval_NNN.md` files. The two glob patterns in `save_summary`
(demo.py lines 167, 171) are disjoint — a final file never matches the
interval pattern and vice versa — so the two sets evolve independently. -/
structure SummariesDir where
  final : Finset ℕ
  interval : Finset ℕ
deriving DecidableEq

/-- demo.py lines 160-188, `save_summary`: skip entirely when the summary
text is empty; otherwise count the existing files of the requested kind,
name the new file with that count plus one, and write it (an `open(..., 'w')`
that overwrites any file already bearing that number). Returns the new
directory state and the number written, `none` when the save was skipped. -/
def save_summary (summary : String) (is_final : Bool) (d : SummariesDir) :
    SummariesDir × Option ℕ :=
  if summary = "" then (d, none)
  else if is_final then
    let next_number := d.final.card + 1
    ({ d with final := insert next_number d.final }, some next_number)
  else
    let next_number := d.interval.card + 1
    ({ d with interval := insert next_number d.interval }, some next_number)

/-- Whether a call to `save_summary` would overwrite an existing file:
the computed number already names a file of the same kind. -/
def save_summary_overwrites (summary : String) (is_final : Bool)
    (d : SummariesDir) : Bool :=
  if summary = "" then false
  else if is_final then decide ((d.final.card + 1) ∈ d.final)
  else decide ((d.interval.card + 1) ∈ d.interval)

/-- demo.py lines 111-137, `analyze_knowledge_base`: return `""` without
calling the remote service when the knowledge base is empty, otherwise
return the summarizer's output. The external summarizer is the oracle
parameter `summarize`. -/
def analyze_knowledge_base (summarize : List String → String)
    (knowledge_base : List String) : String :=
  if knowledge_base = [] then "" else summarize knowledge_base

/-- Run configuration (demo.py lines 21, 24): `ANALYSIS_INTERVAL` and
`TEST_PAGES`, each possibly `None`. -/
structure RunConfig where
  test_pages : Option ℕ
  analysis_interval : Option ℕ
deriving DecidableEq

/-- demo.py line 224: `pages_to_process = TEST_PAGES if TEST_PAGES is not
None else pdf_document.page_count`. -/
def pages_to_process (cfg : RunConfig) (page_count : ℕ) : ℕ :=
  match cfg.test_pages with
  | some n => n
  | none => page_count

/-- demo.py lines 234-238: the interval branch runs when `ANALYSIS_INTERVAL`
is truthy (not `None` and not `0`), `(page_num + 1) % ANALYSIS_INTERVAL == 0`,
and `page_num + 1 != pages_to_process`. -/
def interval_trigger (cfg : RunConfig) (ptp page_num : ℕ) : Bool :=
  match cfg.analysis_interval with
  | none => false
  | some k => k != 0 && (page_num + 1) % k == 0 && (page_num + 1) != ptp

/-- demo.py line 244: the final branch runs when
`page_num + 1 == pages_to_process`. -/
def final_trigger (ptp page_num : ℕ) : Bool :=
  (page_num + 1) == ptp

/-- Kind tag of a written summary file. -/
inductive SummaryKind where
  | interval
  | final
deriving DecidableEq

/-- State threaded through `main`'s page loop: the in-memory knowledge list,
the knowledge file on disk, the summaries directory, and (for the theorems)
the log of summary files actually written, as
(page_num + 1, kind, file number). -/
structure LoopState where
  knowledge_base : List String
  knowledge_file : Option Json
  dir : SummariesDir
  writes : List (ℕ × SummaryKind × ℕ)

/-- Perform one `save_summary` call from the loop, recording the write (if
any) in the log. -/
def write_summary (summary : String) (is_final : Bool) (page_num : ℕ)
    (s : LoopState) : LoopState :=
  match save_summary summary is_final s.dir with
  | (d', none) => { s with dir := d' }
  | (d', some n) =>
    { s with
      dir := d'
      writes := s.writes ++
        [(page_num + 1, if is_final then SummaryKind.final else SummaryKind.interval, n)] }

/-- demo.py lines 227-247, the body of the page loop for index `page_num`:
process the page (append + persist), then the interval branch, then the
final branch. `res` is the classifier's response for this page. -/
def loop_body (cfg : RunConfig) (summarize : List String → String) (ptp : ℕ)
    (res : PageContent) (page_num : ℕ) (s : LoopState) : LoopState :=
  let p := process_page res s.knowledge_base
  let s1 : LoopState :=
    { s with knowledge_base := p.1, knowledge_file := some p.2 }
  let s2 :=
    if interval_trigger cfg ptp page_num then
      write_summary (analyze_knowledge_base summarize s1.knowledge_base) false page_num s1
    else s1
  if final_trigger ptp page_num then
    write_summary (analyze_knowledge_base summarize s2.knowledge_base) true page_num s2
  else s2

/-- Default classifier response used only for out-of-range indexing
(`pages.getD`); the loop never reads it, as its indices stay below
`pages.length`. -/
def blankPage : PageContent := ⟨false, []⟩

/-- Fold the loop body over a list of page indices. -/
def run_pages (cfg : RunConfig) (summarize : List String → String)
    (pages : List PageContent) (ptp : ℕ) (s0 : LoopState) (idxs : List ℕ) :
    LoopState :=
  idxs.foldl (fun s i => loop_body cfg summarize ptp (pages.getD i blankPage) i s) s0

/-- demo.py line 227: the loop iterates over
`range(min(pages_to_process, pdf_document.page_count))`. -/
def visited_pages (cfg : RunConfig) (page_count : ℕ) : List ℕ :=
  List.range (min (pages_to_process cfg page_count) page_count)

/-- Filesystem state relevant to the program: the knowledge file and the
summaries directory. -/
structure World where
  knowledge_file : Option Json
  summaries : SummariesDir

/-- demo.py lines 139-148, `setup_directories` (modelled fragment): delete
every file in the knowledge and summaries directories. (The PDF staging and
its possible FileNotFoundError are outside the modelled fragment.) -/
def setup_directories (_w : World) : World :=
  { knowledge_file := none, summaries := ⟨∅, ∅⟩ }

/-- Initial knowledge base of `main` (demo.py line 221): what
`load_existing_knowledge` returns right after `setup_directories`. In
Python an error would propagate; the `.error` fallback below is dead code
because setup has just removed the file. -/
def main_initial_kb (w : World) : List String :=
  match load_existing_knowledge (setup_directories w).knowledge_file with
  | .ok l => l
  | .error _ => []

/-- demo.py lines 209-249, `main`, run for the first `n` loop iterations
(prefix of the run): setup, load, then fold the loop body over page indices
`0..n-1`. `pages` is the per-page classifier oracle; its length is the
document's page count. -/
def main_run_upto (cfg : RunConfig) (summarize : List String → String)
    (pages : List PageContent) (w : World) (n : ℕ) : LoopState :=
  let w1 := setup_directories w
  run_pages cfg summarize pages (pages_to_process cfg pages.length)
    { knowledge_base := main_initial_kb w
      knowledge_file := w1.knowledge_file
      dir := w1.summaries
      writes := [] }
    (List.range n)

/-- demo.py lines 209-249, `main`: the complete run. -/
def main_run (cfg : RunConfig) (summarize : List String → String)
    (pages : List PageContent) (w : World) : LoopState :=
  main_run_upto cfg summarize pages w
    (min (pages_to_process cfg pages.length) pages.length)

/-- Concatenation, in page order, of each page's knowledge restricted to
pages whose classifier response had `has_content` (the reference value for
the accumulation claims). -/
def extracted_knowledge (ps : List PageContent) : List String :=
  (ps.map (fun p => if p.has_content then p.knowledge else [])).flatten

/-- Repeatedly call `save_summary` with kind interval, one call per element
of `texts`, returning the final directory state and, per call, whether that
call overwrote an existing file. -/
def write_interval_summaries (texts : List String) (d : SummariesDir) :
    SummariesDir × List Bool :=
  match texts with
  | [] => (d, [])
  | t :: ts =>
    let ov := save_summary_overwrites t false d
    let r := save_summary t false d
    let rest := write_interval_summaries ts r.1
    (rest.1, ov :: rest.2)

/-- Concrete 3-page document used by witnesses: content on pages 0 and 2,
a skipped page (with a knowledge list the contract says should be empty)
in between. -/
def sample_pages : List PageContent :=
  [⟨true, ["alpha"]⟩, ⟨false, ["hidden"]⟩, ⟨true, ["beta", "gamma"]⟩]

/-- Concrete summarizer oracle used by witnesses. -/
def sample_summarize : List String → String := fun _ => "digest"

/-- Concrete initial filesystem state used by witnesses. -/
def w0 : World := ⟨none, ⟨∅, ∅⟩⟩

/-! ### Helper lemmas -/

theorem take_succ_of_lt {α : Type} (d : α) :
    ∀ (l : List α) (n : ℕ), n < l.length → l.take (n + 1) = l.take n ++ [l.getD n d]
  | [], n, h => absurd h (by simp)
  | _ :: _, 0, _ => rfl
  | a :: l, n + 1, h => by
    simp only [List.take_succ_cons, List.getD_cons_succ, List.cons_append]
    exact congrArg (a :: ·) (take_succ_of_lt d l n (Nat.lt_of_succ_lt_succ h))

theorem getD_take_of_lt {α : Type} (d : α) :
    ∀ (l : List α) (n i : ℕ), i < n → (l.take n).getD i d = l.getD i d
  | [], _, _, _ => by simp
  | _ :: _, _ + 1, 0, _ => rfl
  | _ :: _, 0, i, h => absurd h (Nat.not_lt_zero i)
  | a :: l, n + 1, i + 1, h => by
    simpa only [List.take_succ_cons, List.getD_cons_succ] using
      getD_take_of_lt d l n i (Nat.lt_of_succ_lt_succ h)

theorem extracted_knowledge_append (l₁ l₂ : List PageContent) :
    extracted_knowledge (l₁ ++ l₂) = extracted_knowledge l₁ ++ extracted_knowledge l₂ := by
  simp [extracted_knowledge]

theorem write_summary_knowledge_base (summary : String) (is_final : Bool)
    (page_num : ℕ) (s : LoopState) :
    (write_summary summary is_final page_num s).knowledge_base = s.knowledge_base := by
  unfold write_summary
  cases hp : save_summary summary is_final s.dir with
  | mk d o => cases o <;> rfl

theorem write_summary_knowledge_file (summary : String) (is_final : Bool)
    (page_num : ℕ) (s : LoopState) :
    (write_summary summary is_final page_num s).knowledge_file = s.knowledge_file := by
  unfold write_summary
  cases hp : save_summary summary is_final s.dir with
  | mk d o => cases o <;> rfl

theorem loop_body_knowledge_base (cfg : RunConfig) (summ : List String → String)
    (ptp : ℕ) (res : PageContent) (page_num : ℕ) (s : LoopState) :
    (loop_body cfg summ ptp res page_num s).knowledge_base
      = s.knowledge_base ++ (if res.has_content then res.knowledge else []) := by
  unfold loop_body
  cases hit : interval_trigger cfg ptp page_num <;>
    cases hft : final_trigger ptp page_num <;>
    simp [hit, hft, write_summary_knowledge_base, process_page]

theorem loop_body_knowledge_file (cfg : RunConfig) (summ : List String → String)
    (ptp : ℕ) (res : PageContent) (page_num : ℕ) (s : LoopState) :
    (loop_body cfg summ ptp res page_num s).knowledge_file
      = some (knowledgeFileJson
          (s.knowledge_base ++ (if res.has_content then res.knowledge else []))) := by
  unfold loop_body
  cases hit : interval_trigger cfg ptp page_num <;>
    cases hft : final_trigger ptp page_num <;>
    simp [hit, hft, write_summary_knowledge_file, process_page, save_knowledge_base]

theorem main_run_upto_succ (cfg : RunConfig) (summ : List String → String)
    (pages : List PageContent) (w : World) (n : ℕ) :
    main_run_upto cfg summ pages w (n + 1)
      = loop_body cfg summ (pages_to_process cfg pages.length)
          (pages.getD n blankPage) n (main_run_upto cfg summ pages w n) := by
  unfold main_run_upto run_pages
  rw [List.range_succ, List.foldl_append]
  rfl

theorem main_run_upto_kb (cfg : RunConfig) (summ : List String → String)
    (pages : List PageContent) (w : World) :
    ∀ n, n ≤ pages.length →
      (main_run_upto cfg summ pages w n).knowledge_base
        = extracted_knowledge (pages.take n) := by
  intro n
  induction n with
  | zero => intro _; rfl
  | succ n ih =>
    intro h
    rw [main_run_upto_succ, loop_body_knowledge_base, ih (Nat.le_of_succ_le h),
      take_succ_of_lt blankPage pages n (Nat.lt_of_succ_le h),
      extracted_knowledge_append]
    simp [extracted_knowledge]

theorem save_summary_interval_step (t : String) (d : SummariesDir) (k : ℕ)
    (ht : t ≠ "") (hd : d.interval = Finset.Icc 1 k) :
    (save_summary t false d).1.interval = Finset.Icc 1 (k + 1)
    ∧ save_summary_overwrites t false d = false := by
  have hcard : d.interval.card = k := by rw [hd, Nat.card_Icc]; omega
  have h1 : (save_summary t false d).1.interval = insert (d.interval.card + 1) d.interval := by
    simp [save_summary, ht]
  have h2 : save_summary_overwrites t false d
      = decide ((d.interval.card + 1) ∈ d.interval) := by
    simp [save_summary_overwrites, ht]
  constructor
  · rw [h1, hcard, hd]
    ext x
    simp only [Finset.mem_insert, Finset.mem_Icc]
    omega
  · rw [h2, hcard, hd]
    simp only [decide_eq_false_iff_not, Finset.mem_Icc]
    omega

theorem write_interval_summaries_spec :
    ∀ (texts : List String) (k : ℕ) (d : SummariesDir),
      d.interval = Finset.Icc 1 k → (∀ t ∈ texts, t ≠ "") →
      (write_interval_summaries texts d).1.interval = Finset.Icc 1 (k + texts.length)
      ∧ (write_interval_summaries texts d).2 = List.replicate texts.length false := by
  intro texts
  induction texts with
  | nil => intro k d hd _; exact ⟨hd, rfl⟩
  | cons t ts ih =>
    intro k d hd hne
    have ht : t ≠ "" := hne t (by simp)
    have hstep := save_summary_interval_step t d k ht hd
    have hrest := ih (k + 1) (save_summary t false d).1 hstep.1
      (fun u hu => hne u (by simp [hu]))
    refine ⟨?_, ?_⟩
    · show (write_interval_summaries ts (save_summary t false d).1).1.interval = _
      rw [hrest.1]
      congr 1
      simp only [List.length_cons]
      omega
    · show save_summary_overwrites t false d
          :: (write_interval_summaries ts (save_summary t false d).1).2 = _
      rw [hrest.2, hstep.2]
      simp [List.replicate_succ]

/-! ### Claim theorems -/

/-- C1: for every run and every page index `i` below the loop bound, the
knowledge list persisted after processing pages `0..i` equals the
concatenation, in page order, of each page's classifier-returned knowledge
restricted to pages where `has_content` was true; likewise for the
in-memory list. The statement quantifies over every prefix `i`, not just
the end of the run. -/
theorem C1_prefix_accumulation (cfg : RunConfig) (summarize : List String → String)
    (pages : List PageContent) (w : World) (i : ℕ)
    (hi : i < min (pages_to_process cfg pages.length) pages.length) :
    (main_run_upto cfg summarize pages w (i + 1)).knowledge_file
      = some (knowledgeFileJson (extracted_knowledge (pages.take (i + 1))))
    ∧ (main_run_upto cfg summarize pages w (i + 1)).knowledge_base
      = extracted_knowledge (pages.take (i + 1)) := by
  have hlen : i < pages.length := lt_of_lt_of_le hi (min_le_right _ _)
  constructor
  · rw [main_run_upto_succ, loop_body_knowledge_file,
      main_run_upto_kb cfg summarize pages w i (Nat.le_of_lt hlen),
      take_succ_of_lt blankPage pages i hlen, extracted_knowledge_append]
    simp [extracted_knowledge]
  · exact main_run_upto_kb cfg summarize pages w (i + 1) (Nat.succ_le_of_lt hlen)

/-- C1 witness: the theorem applied to a concrete 3-page document, cap 2,
at prefix index 0. -/
theorem C1_witness :
    0 < min (pages_to_process ⟨some 2, none⟩ sample_pages.length) sample_pages.length
    ∧ ((main_run_upto ⟨some 2, none⟩ sample_summarize sample_pages w0 1).knowledge_file
        = some (knowledgeFileJson (extracted_knowledge (sample_pages.take 1)))
      ∧ (main_run_upto ⟨some 2, none⟩ sample_summarize sample_pages w0 1).knowledge_base
        = extracted_knowledge (sample_pages.take 1)) :=
  ⟨by decide,
    C1_prefix_accumulation ⟨some 2, none⟩ sample_summarize sample_pages w0 0 (by decide)⟩

/-- C5: save/load round trip — loading the file produced by saving any
knowledge list returns exactly that list, in the same order. -/
theorem C5_save_load_round_trip (knowledge_base : List String) :
    load_existing_knowledge (some (save_knowledge_base knowledge_base))
      = Except.ok knowledge_base := by
  have h : decodeStringList (knowledge_base.map Json.str) = some knowledge_base := by
    induction knowledge_base with
    | nil => rfl
    | cons a l ih => simp [decodeStringList, ih]
  simp [load_existing_knowledge, save_knowledge_base, knowledgeFileJson, dictLookup, h]

/-- C7: load returns the `knowledge` field of the parsed file whenever the
file exists and has the expected shape, and returns the empty list when no
file exists — the missing-file case is `ok`, not an error. -/
theorem C7_load_contract (j : Json) (fields : List (String × Json))
    (xs : List Json) (l : List String) (hobj : j = Json.obj fields)
    (hfield : dictLookup fields "knowledge" = some (Json.arr xs))
    (hdec : decodeStringList xs = some l) :
    load_existing_knowledge (some j) = Except.ok l
    ∧ load_existing_knowledge none = Except.ok [] := by
  subst hobj
  exact ⟨by simp [load_existing_knowledge, hfield, hdec], rfl⟩

/-- C7 witness: the theorem applied to the concrete file
`{"knowledge": ["alpha"]}` and to the missing-file case. -/
theorem C7_witness :
    Json.obj [("knowledge", Json.arr [Json.str "alpha"])]
        = Json.obj [("knowledge", Json.arr [Json.str "alpha"])]
    ∧ dictLookup [("knowledge", Json.arr [Json.str "alpha"])] "knowledge"
        = some (Json.arr [Json.str "alpha"])
    ∧ decodeStringList [Json.str "alpha"] = some ["alpha"]
    ∧ (load_existing_knowledge
          (some (Json.obj [("knowledge", Json.arr [Json.str "alpha"])]))
        = Except.ok ["alpha"]
      ∧ load_existing_knowledge none = Except.ok []) :=
  ⟨rfl, rfl, rfl, C7_load_contract _ _ _ _ rfl rfl rfl⟩

/-- C8: within a run the knowledge base is append-only — the list before
processing any page of the run is a prefix of the list after it — and after
every update the whole list is what is persisted to the knowledge file. -/
theorem C8_append_only_and_persisted (cfg : RunConfig)
    (summarize : List String → String) (pages : List PageContent) (w : World)
    (n : ℕ)
    (_hn : n < min (pages_to_process cfg pages.length) pages.length) :
    (main_run_upto cfg summarize pages w n).knowledge_base
      <+: (main_run_upto cfg summarize pages w (n + 1)).knowledge_base
    ∧ (main_run_upto cfg summarize pages w (n + 1)).knowledge_file
      = some (knowledgeFileJson
          ((main_run_upto cfg summarize pages w (n + 1)).knowledge_base)) := by
  constructor
  · rw [main_run_upto_succ, loop_body_knowledge_base]
    exact ⟨_, rfl⟩
  · rw [main_run_upto_succ, loop_body_knowledge_file, loop_body_knowledge_base]

/-- C8 witness: the theorem applied to a concrete 3-page document, cap 2,
at page 0. -/
theorem C8_witness :
    0 < min (pages_to_process ⟨some 2, none⟩ sample_pages.length) sample_pages.length
    ∧ ((main_run_upto ⟨some 2, none⟩ sample_summarize sample_pages w0 0).knowledge_base
        <+: (main_run_upto ⟨some 2, none⟩ sample_summarize sample_pages w0 1).knowledge_base
      ∧ (main_run_upto ⟨some 2, none⟩ sample_summarize sample_pages w0 1).knowledge_file
        = some (knowledgeFileJson
            ((main_run_upto ⟨some 2, none⟩ sample_summarize sample_pages w0 1).knowledge_base))) :=
  ⟨by decide,
    C8_append_only_and_persisted ⟨some 2, none⟩ sample_summarize sample_pages w0 0 (by decide)⟩

/-- C9: `setup_directories` deletes every file in the knowledge directory
before `load_existing_knowledge` runs, so in every run of `main` that
reaches the page loop the load hits the fresh-empty branch: the file is
gone, load returns `[]` without error, and the knowledge base entering the
loop is empty — resume-from-prior-state never actually occurs. -/
theorem C9_always_fresh (cfg : RunConfig) (summarize : List String → String)
    (pages : List PageContent) (w : World) :
    (setup_directories w).knowledge_file = none
    ∧ load_existing_knowledge (setup_directories w).knowledge_file = Except.ok []
    ∧ main_initial_kb w = []
    ∧ (main_run_upto cfg summarize pages w 0).knowledge_base = [] :=
  ⟨rfl, rfl, rfl, rfl⟩

/-- C10: a `has_content = false` classifier response never contributes
knowledge, even when its knowledge list is non-empty: `process_page`
returns, and persists, `current_knowledge` unchanged. -/
theorem C10_skip_ignores_knowledge (result : PageContent)
    (current_knowledge : List String) (h : result.has_content = false) :
    process_page result current_knowledge
      = (current_knowledge, save_knowledge_base current_knowledge) := by
  simp [process_page, h]

/-- C10 witness: a skipped page carrying a non-empty knowledge list leaves
the knowledge base untouched. -/
theorem C10_witness :
    (PageContent.mk false ["hidden"]).has_content = false
    ∧ (PageContent.mk false ["hidden"]).knowledge ≠ []
    ∧ process_page ⟨false, ["hidden"]⟩ ["alpha"]
        = (["alpha"], save_knowledge_base ["alpha"]) :=
  ⟨rfl, by decide, C10_skip_ignores_knowledge ⟨false, ["hidden"]⟩ ["alpha"] rfl⟩

theorem run_pages_congr_take (cfg : RunConfig) (summ : List String → String)
    (pages : List PageContent) (ptp cap : ℕ) :
    ∀ (idxs : List ℕ) (s0 : LoopState), (∀ i ∈ idxs, i < cap) →
      run_pages cfg summ (pages.take cap) ptp s0 idxs
        = run_pages cfg summ pages ptp s0 idxs := by
  intro idxs
  induction idxs with
  | nil => intro s0 _; rfl
  | cons i is ih =>
    intro s0 h
    show run_pages cfg summ (pages.take cap) ptp
        (loop_body cfg summ ptp ((pages.take cap).getD i blankPage) i s0) is
      = run_pages cfg summ pages ptp
        (loop_body cfg summ ptp (pages.getD i blankPage) i s0) is
    rw [getD_take_of_lt blankPage pages cap i (h i (by simp))]
    exact ih _ (fun j hj => h j (by simp [hj]))

/-- C2 counterexample: with cap 4, interval 2, and a 2-page document with
content on both pages, the last processed page is page 2 (min(4, 2) = 2),
yet the run writes an interval summary at page 2 — the last processed page
— and never writes a final summary: the guards compare `page_num + 1`
against the configured cap (4), not against the index of the last page
actually processed, contradicting the claim's "i+1 is not the last
processed page" / "final when i+1 equals the last processed page". -/
theorem C2_counterexample :
    min (pages_to_process ⟨some 4, some 2⟩ 2) 2 = 2
    ∧ (main_run ⟨some 4, some 2⟩ (fun _ => "S")
        [⟨true, ["a"]⟩, ⟨true, ["b"]⟩] w0).writes
      = [(2, SummaryKind.interval, 1)] :=
  ⟨rfl, rfl⟩

set_option maxRecDepth 8000 in
/-- C2 (amended): the interval summarization step runs at page index `i`
exactly when a nonzero interval size `K` is configured, `(i+1) % K = 0`,
and `i+1` differs from `pages_to_process` — the configured cap when set,
else the document's page count; the final summarization step runs exactly
when `i+1 = pages_to_process`; the two triggers never both fire on the
same page. In particular, with interval 20 and cap 60 on a 60-page
document with content on every page, interval summaries are written after
pages 20 and 40 and a final (not interval) summary after page 60. -/
theorem C2_amended_triggers (cfg : RunConfig) (ptp i : ℕ) :
    (interval_trigger cfg ptp i = true
      ↔ ∃ k, cfg.analysis_interval = some k ∧ k ≠ 0
          ∧ (i + 1) % k = 0 ∧ i + 1 ≠ ptp)
    ∧ (final_trigger ptp i = true ↔ i + 1 = ptp)
    ∧ (interval_trigger cfg ptp i && final_trigger ptp i) = false
    ∧ (main_run ⟨some 60, some 20⟩ (fun _ => "S")
        (List.replicate 60 ⟨true, ["k"]⟩) w0).writes
      = [(20, SummaryKind.interval, 1), (40, SummaryKind.interval, 2),
         (60, SummaryKind.final, 1)] := by
  refine ⟨?_, ?_, ?_, ?_⟩
  · cases hk : cfg.analysis_interval with
    | none => simp [interval_trigger, hk]
    | some k => simp [interval_trigger, hk, and_assoc]
  · simp [final_trigger]
  · cases hft : final_trigger ptp i with
    | false => simp [hft]
    | true =>
      have hp : i + 1 = ptp := by simpa [final_trigger] using hft
      cases hk : cfg.analysis_interval with
      | none => simp [interval_trigger, hk]
      | some k => simp [interval_trigger, hk, hp]
  · decide

/-- C2 amended witness: the amended trigger characterization applied at a
concrete configuration (cap 4, interval 2) and page index 1. -/
theorem C2_amended_witness :
    interval_trigger ⟨some 4, some 2⟩ 4 1 = true :=
  (C2_amended_triggers ⟨some 4, some 2⟩ 4 1).1.mpr
    ⟨2, rfl, by decide, by decide, by decide⟩

/-- C3 code-bug evaluation: with cap 3 and a 1-page document whose single
page has content (and a summarizer returning non-empty text), the run ends
with a non-empty knowledge base yet writes no final summary file: the
final-branch guard (demo.py line 244) compares `page_num + 1` with
`pages_to_process = 3`, which the loop over `min(3, 1) = 1` pages never
reaches. The last conjunct checks the complementary half of the claim on a
run whose knowledge base stays empty: the final write is a no-op (no file,
no error). -/
theorem C3_final_summary_missing_when_cap_exceeds_pages :
    (main_run ⟨some 3, none⟩ (fun _ => "S") [⟨true, ["a"]⟩] w0).knowledge_base ≠ []
    ∧ (main_run ⟨some 3, none⟩ (fun _ => "S") [⟨true, ["a"]⟩] w0).writes = []
    ∧ (main_run ⟨some 3, none⟩ (fun _ => "S") [⟨true, ["a"]⟩] w0).dir.final = ∅
    ∧ (main_run ⟨some 1, none⟩ (fun _ => "S") [⟨false, []⟩] w0).knowledge_base = []
    ∧ (main_run ⟨some 1, none⟩ (fun _ => "S") [⟨false, []⟩] w0).writes = [] :=
  ⟨by decide, rfl, rfl, rfl, rfl⟩

/-- C4: the next file number for a kind is always the count of existing
files of that kind plus one, and writing any number of non-empty interval
summaries into a directory whose interval files are exactly 001..00k
produces files k+1, k+2, ... in order with no gaps, collisions, or
overwrites; the empty directory is the case k = 0 (yielding 001..00N), and
a later invocation against the same non-wiped directory continues the
sequence from where the previous one stopped. -/
theorem C4_append_only_numbering (texts : List String) (k : ℕ)
    (d : SummariesDir) (hd : d.interval = Finset.Icc 1 k)
    (hne : ∀ t ∈ texts, t ≠ "") :
    (∀ t : String, t ≠ "" →
      (save_summary t false d).2 = some (d.interval.card + 1)
      ∧ (save_summary t true d).2 = some (d.final.card + 1))
    ∧ (write_interval_summaries texts d).1.interval
        = Finset.Icc 1 (k + texts.length)
    ∧ (write_interval_summaries texts d).2
        = List.replicate texts.length false := by
  refine ⟨?_, write_interval_summaries_spec texts k d hd hne⟩
  intro t ht
  constructor <;> simp [save_summary, ht]

/-- C4 witness: three non-empty interval summaries written into an empty
directory produce exactly files 001, 002, 003 with no overwrites. -/
theorem C4_witness :
    (SummariesDir.mk ∅ ∅).interval = Finset.Icc 1 0
    ∧ (∀ t ∈ ["one", "two", "three"], t ≠ "")
    ∧ ((∀ t : String, t ≠ "" →
        (save_summary t false ⟨∅, ∅⟩).2
            = some ((SummariesDir.mk ∅ ∅).interval.card + 1)
        ∧ (save_summary t true ⟨∅, ∅⟩).2
            = some ((SummariesDir.mk ∅ ∅).final.card + 1))
      ∧ (write_interval_summaries ["one", "two", "three"] ⟨∅, ∅⟩).1.interval
          = Finset.Icc 1 (0 + (["one", "two", "three"] : List String).length)
      ∧ (write_interval_summaries ["one", "two", "three"] ⟨∅, ∅⟩).2
          = List.replicate (["one", "two", "three"] : List String).length false) :=
  ⟨by decide, by decide,
    C4_append_only_numbering ["one", "two", "three"] 0 ⟨∅, ∅⟩ (by decide) (by decide)⟩

/-- C6: when the configured cap is smaller than the document's page count,
the loop iterates over exactly the indices 0..cap-1, every visited index is
below the cap, and the entire run is unchanged if the document is
truncated to its first cap pages — the orchestration never visits a later
page. -/
theorem C6_cap_truncates_run (cfg : RunConfig)
    (summarize : List String → String) (pages : List PageContent) (w : World)
    (cap : ℕ) (hcap : cfg.test_pages = some cap) (hlt : cap < pages.length) :
    visited_pages cfg pages.length = List.range cap
    ∧ (∀ i ∈ visited_pages cfg pages.length, i < cap)
    ∧ main_run cfg summarize pages w
        = main_run cfg summarize (pages.take cap) w := by
  have hptp : pages_to_process cfg pages.length = cap := by
    simp [pages_to_process, hcap]
  have hmin : min (pages_to_process cfg pages.length) pages.length = cap := by
    rw [hptp]; exact Nat.min_eq_left (Nat.le_of_lt hlt)
  have hvp : visited_pages cfg pages.length = List.range cap := by
    rw [visited_pages, hmin]
  refine ⟨hvp, ?_, ?_⟩
  · intro i hi
    rw [hvp] at hi
    exact List.mem_range.mp hi
  · have hlen' : (pages.take cap).length = cap := by
      rw [List.length_take]; exact Nat.min_eq_left (Nat.le_of_lt hlt)
    have hptp2 : pages_to_process cfg cap = cap := by
      simp [pages_to_process, hcap]
    simp only [main_run, main_run_upto]
    rw [hmin, hptp, hlen', hptp2, Nat.min_self]
    exact (run_pages_congr_take cfg summarize pages cap cap (List.range cap) _
      (fun i hi => List.mem_range.mp hi)).symm

/-- C6 witness: the theorem applied to cap 1 against the concrete 3-page
document. -/
theorem C6_witness :
    (RunConfig.mk (some 1) none).test_pages = some 1
    ∧ 1 < sample_pages.length
    ∧ (visited_pages ⟨some 1, none⟩ sample_pages.length = List.range 1
      ∧ (∀ i ∈ visited_pages ⟨some 1, none⟩ sample_pages.length, i < 1)
      ∧ main_run ⟨some 1, none⟩ sample_summarize sample_pages w0
          = main_run ⟨some 1, none⟩ sample_summarize (sample_pages.take 1) w0) :=
  ⟨rfl, by decide,
    C6_cap_truncates_run ⟨some 1, none⟩ sample_summarize sample_pages w0 1 rfl
      (by decide)⟩
